import Mathlib

/-!
Verification of the user-account and OTP-confirmation lifecycle of the
hero-wot backend (`src/Hero-Backend/src/services/userService.js`).

The service mediates a relational table of user rows through an ORM.  We
embed the table as a list of `User` records and each service operation as a
pure function from the current store (plus the inputs the real code reads
from its environment: the current time `now` in milliseconds and the
one-time code produced by the external email dispatcher) to a result
together with the store after the call.  Operations that can throw return
`Except Err`.

Times are integers in milliseconds since the epoch, mirroring `Date.now()`.
-/

namespace HeroWot

/-- A user row.  Attribute names follow the columns the service itself
queries (`first_name`, `email_confirmation_otp`, ... in `userService.js`).
The model file `src/models/userModel.js` is not part of the sources;
the attribute set is taken from the queries in the service plus the spec's
data model (identifier, email, name fields, password hash or google_id,
role, email_confirmed, the two OTP fields, refresh_token, created_at). -/
structure User where
  id : Nat
  email : String
  first_name : String
  last_name : String
  password : Option String
  google_id : Option String
  role : String
  email_confirmed : Bool
  email_confirmation_otp : Option String
  email_confirmation_otp_expires : Option Int
  refresh_token : Option String
  created_at : Int
deriving Repr, DecidableEq

/-- A values object passed to `UserModel.create` / `UserModel.update`.
Each field is `none` when the payload does not mention that attribute.
Keys of the payload that are not attributes of the model are not
representable here: the ORM silently drops them, so they never reach the
store (see `revokeRefreshToken`). -/
structure UserData where
  first_name : Option String := none
  last_name : Option String := none
  email : Option String := none
  password : Option (Option String) := none
  google_id : Option (Option String) := none
  role : Option String := none
  email_confirmed : Option Bool := none
  email_confirmation_otp : Option (Option String) := none
  email_confirmation_otp_expires : Option (Option Int) := none
  refresh_token : Option (Option String) := none
deriving Repr, DecidableEq

/-- Error kinds thrown by the service (spec section 7). -/
inductive Err where
  | NotFound
  | Conflict
  | InvalidOrExpiredOTP
  | ValidationError
deriving Repr, DecidableEq

/-- The user table. -/
abbrev Store := List User

/-- `UserModel.findByPk(id)`. -/
def findByPk (s : Store) (id : Nat) : Option User :=
  s.find? (fun u => u.id == id)

/-- `UserModel.update(_, { where: { id } })`: apply `f` to every row whose
primary key is `id`. -/
def updateWhereId (s : Store) (id : Nat) (f : User → User) : Store :=
  s.map (fun u => if u.id == id then f u else u)

/-- Apply a values object to an existing row: attributes present in the
payload overwrite the stored value, absent ones are kept. -/
def applyData (d : UserData) (u : User) : User :=
  { u with
    first_name := d.first_name.getD u.first_name
    last_name := d.last_name.getD u.last_name
    email := d.email.getD u.email
    password := d.password.getD u.password
    google_id := d.google_id.getD u.google_id
    role := d.role.getD u.role
    email_confirmed := d.email_confirmed.getD u.email_confirmed
    email_confirmation_otp := d.email_confirmation_otp.getD u.email_confirmation_otp
    email_confirmation_otp_expires :=
      d.email_confirmation_otp_expires.getD u.email_confirmation_otp_expires
    refresh_token := d.refresh_token.getD u.refresh_token }

/-- Build the row inserted by `UserModel.create(d)` with primary key
`newId` at time `now`.  Modelled from the spec: the model file is absent,
so the column defaults come from the spec's data model and lifecycle —
a locally created account starts unconfirmed (`email_confirmed = false`)
with no OTP, no refresh token, and `created_at` set to the creation time. -/
def buildUser (d : UserData) (newId : Nat) (now : Int) : User :=
  { id := newId
    email := d.email.getD ""
    first_name := d.first_name.getD ""
    last_name := d.last_name.getD ""
    password := d.password.getD none
    google_id := d.google_id.getD none
    role := d.role.getD "user"
    email_confirmed := d.email_confirmed.getD false
    email_confirmation_otp := d.email_confirmation_otp.getD none
    email_confirmation_otp_expires := d.email_confirmation_otp_expires.getD none
    refresh_token := d.refresh_token.getD none
    created_at := now }

/-- Modelled from the spec: the model file holding the schema validation is
absent; per the spec a registration needs the email and name fields plus an
authentication anchor (a password credential or a google_id). -/
def requiredPresent (d : UserData) : Bool :=
  d.email.isSome && d.first_name.isSome && d.last_name.isSome &&
    ((d.password.getD none).isSome || (d.google_id.getD none).isSome)

/-- Does some row already use this email (the unique constraint)? -/
def emailTaken (s : Store) (email : String) : Bool :=
  s.any (fun u => u.email == email)

/-- 15 minutes in milliseconds, `15 * 60 * 1000` in the source. -/
def otpTTL : Int := 15 * 60 * 1000

/-- The write `createUser` and `updateUserOTP` both issue: store the fresh
code with expiry `now + 15 minutes` on the row with key `id`. -/
def setOTPFields (s : Store) (id : Nat) (otp : String) (now : Int) : Store :=
  updateWhereId s id (fun u =>
    { u with
      email_confirmation_otp := some otp
      email_confirmation_otp_expires := some (now + otpTTL) })

/-- `createUser(userData)`: insert the row, then a second UPDATE stores the
code returned by the confirmation-email dispatch together with its
expiry; the instance returned is the one from the insert.  `otp` is the
code the external dispatcher produced; `newId` the key the database
assigned. -/
def createUser (now : Int) (otp : String) (newId : Nat) (d : UserData)
    (s : Store) : Except Err User × Store :=
  if !requiredPresent d then (Except.error Err.ValidationError, s)
  else if emailTaken s (d.email.getD "") then (Except.error Err.Conflict, s)
  else
    let u := buildUser d newId now
    (Except.ok u, setOTPFields (s ++ [u]) newId otp now)

/-- `createGoogleUser(userData)`: insert with `email_confirmed` forced to
`true`; no OTP is issued. -/
def createGoogleUser (now : Int) (newId : Nat) (d : UserData)
    (s : Store) : Except Err User × Store :=
  if !requiredPresent d then (Except.error Err.ValidationError, s)
  else if emailTaken s (d.email.getD "") then (Except.error Err.Conflict, s)
  else
    let u := buildUser { d with email_confirmed := some true } newId now
    (Except.ok u, s ++ [u])

/-- `updateUserOTP(userId)`: look the user up, throw `User not found` when
absent, otherwise redispatch a code and overwrite both OTP fields with the
new code and a fresh 15-minute expiry.  Returns the instance fetched
before the update, as the source does. -/
def updateUserOTP (now : Int) (otp : String) (userId : Nat)
    (s : Store) : Except Err User × Store :=
  match findByPk s userId with
  | none => (Except.error Err.NotFound, s)
  | some u => (Except.ok u, setOTPFields s userId otp now)

/-- Is the stored OTP expiry strictly in the future (`Op.gt: new Date()`)?
A null expiry never compares greater. -/
def otpLive (now : Int) (u : User) : Bool :=
  match u.email_confirmation_otp_expires with
  | some e => decide (now < e)
  | none => false

/-- `verifyEmailOTP(userId, otp)`: a single `findOne` whose WHERE clause
requires the id, an exact OTP match and an expiry strictly later than the
current time; no match throws `Invalid or expired OTP` (one error kind for
both reasons) without touching the store; a match confirms the account,
clears both OTP fields and saves the row. -/
def verifyEmailOTP (now : Int) (userId : Nat) (otp : String)
    (s : Store) : Except Err User × Store :=
  match s.find? (fun u =>
      u.id == userId && u.email_confirmation_otp == some otp && otpLive now u) with
  | none => (Except.error Err.InvalidOrExpiredOTP, s)
  | some u =>
    let u' := { u with
      email_confirmed := true
      email_confirmation_otp := none
      email_confirmation_otp_expires := none }
    (Except.ok u', updateWhereId s u.id (fun _ => u'))

/-- `updateUser(id, userData)`: unconditional UPDATE by key, then re-read. -/
def updateUser (id : Nat) (d : UserData) (s : Store) :
    Except Err (Option User) × Store :=
  let s' := updateWhereId s id (applyData d)
  (Except.ok (findByPk s' id), s')

/-- `deleteUser(id)`: `UserModel.destroy({ where: { id } })` — removes the
matching rows and resolves with the number removed; a miss is not an
error, it simply reports zero. -/
def deleteUser (id : Nat) (s : Store) : Except Err Nat × Store :=
  ((Except.ok ((s.filter (fun u => u.id == id)).length) : Except Err Nat),
    s.filter (fun u => !(u.id == id)))

/-- `revokeRefreshToken(userId)` executes
`UserModel.update({ refreshToken: null }, { where: { id: userId } })`.
The model attribute is `refresh_token` (snake_case, as in every other
query of this service and in the attribute exclude list of
`getAllUsers`); `refreshToken` is not a model attribute and the ORM
silently drops values keys that are not attributes, so the UPDATE reaching
the store carries an empty assignment list: the payload embeds as the
empty `UserData`. -/
def revokeRefreshToken (userId : Nat) (s : Store) : Except Err Unit × Store :=
  ((Except.ok () : Except Err Unit), updateWhereId s userId (applyData {}))

/-- Does `hay` start with `needle`? -/
def charsStarts : List Char → List Char → Bool
  | _, [] => true
  | [], _ :: _ => false
  | a :: as, b :: bs => a == b && charsStarts as bs

/-- Does `needle` occur contiguously somewhere in `hay`? -/
def charsContains : List Char → List Char → Bool
  | [], needle => needle.isEmpty
  | a :: as, needle => charsStarts (a :: as) needle || charsContains as needle

/-- Case-insensitive substring test, the meaning of
`{ [Op.iLike]: [percent]search[percent] }` (SQL wildcard characters inside
the term itself are not modelled). -/
def containsCI (hay needle : String) : Bool :=
  charsContains (hay.data.map Char.toLower) (needle.data.map Char.toLower)

/-- The `Op.or` block added to the WHERE clause when `search` is truthy:
the term appears case-insensitively in first name, last name or email.
An empty string is falsy in the source, so it adds no condition. -/
def matchesSearch (search : String) (u : User) : Bool :=
  if search == "" then true
  else
    containsCI u.first_name search || containsCI u.last_name search ||
      containsCI u.email search

/-- The role condition added when `role` is truthy: exact equality.  Both
a null role and an empty-string role are falsy and add no condition. -/
def matchesRole (role : Option String) (u : User) : Bool :=
  match role with
  | none => true
  | some r => if r == "" then true else u.role == r

/-- The whole WHERE clause of `getAllUsers`. -/
def matchesQuery (search : String) (role : Option String) (u : User) : Bool :=
  matchesSearch search u && matchesRole role u

/-- A row as returned by `getAllUsers`: every attribute except the excluded
`refresh_token`, `email_confirmation_otp` and
`email_confirmation_otp_expires`. -/
structure ListedUser where
  id : Nat
  email : String
  first_name : String
  last_name : String
  password : Option String
  google_id : Option String
  role : String
  email_confirmed : Bool
  created_at : Int
deriving Repr, DecidableEq

/-- Project a row onto the listed attributes. -/
def listedOfUser (u : User) : ListedUser :=
  { id := u.id
    email := u.email
    first_name := u.first_name
    last_name := u.last_name
    password := u.password
    google_id := u.google_id
    role := u.role
    email_confirmed := u.email_confirmed
    created_at := u.created_at }

/-- Insert into a list kept in decreasing `created_at` order. -/
def insertDesc (u : User) : List User → List User
  | [] => [u]
  | v :: vs => if u.created_at > v.created_at then u :: v :: vs else v :: insertDesc u vs

/-- `order: created_at DESC`. -/
def sortByCreatedDesc : List User → List User
  | [] => []
  | u :: us => insertDesc u (sortByCreatedDesc us)

/-- The record `getAllUsers` resolves with. -/
structure ListResult where
  users : List ListedUser
  totalCount : Nat
  nextOffset : Option Nat
deriving Repr, DecidableEq

/-- `getAllUsers({ limit, offset, search, role })`: `findAndCountAll` with
the WHERE clause above, ordered by `created_at DESC`, the page
`offset, limit` of the matches, the excluded attributes stripped; `count`
is the number of matches before paging; `nextOffset` is
`offset + limit` when `offset + rows.length < count` and null otherwise. -/
def getAllUsers (limit offset : Nat) (search : String) (role : Option String)
    (s : Store) : ListResult :=
  { users :=
      (((sortByCreatedDesc (s.filter (matchesQuery search role))).drop offset).take
        limit).map listedOfUser
    totalCount := (s.filter (matchesQuery search role)).length
    nextOffset :=
      if offset +
            (((sortByCreatedDesc (s.filter (matchesQuery search role))).drop offset).take
              limit).length <
          (s.filter (matchesQuery search role)).length
        then some (offset + limit) else none }

/-- The per-user invariant of the spec's data model: OTP and its expiry are
both null or both set, and a confirmed account has both null. -/
def userInv (u : User) : Prop :=
  (u.email_confirmation_otp = none ↔ u.email_confirmation_otp_expires = none) ∧
    (u.email_confirmed = true →
      u.email_confirmation_otp = none ∧ u.email_confirmation_otp_expires = none)

instance (u : User) : Decidable (userInv u) := by
  unfold userInv; infer_instance

/-- The invariant over the whole table. -/
def storeInv (s : Store) : Prop := ∀ u ∈ s, userInv u

instance (s : Store) : Decidable (storeInv s) := by
  unfold storeInv; infer_instance

/-- A payload that does not touch the confirmation state: neither
`email_confirmed` nor the OTP fields are among its keys. -/
def cleanData (d : UserData) : Prop :=
  d.email_confirmed = none ∧ d.email_confirmation_otp = none ∧
    d.email_confirmation_otp_expires = none

instance (d : UserData) : Decidable (cleanData d) := by
  unfold cleanData; infer_instance

/-- A payload whose keys do not include the OTP fields. -/
def noOtpData (d : UserData) : Prop :=
  d.email_confirmation_otp = none ∧ d.email_confirmation_otp_expires = none

instance (d : UserData) : Decidable (noOtpData d) := by
  unfold noOtpData; infer_instance

/-- Replace the three sensitive columns of a row by null, keeping the rest. -/
def scrubUser (u : User) : User :=
  { u with
    refresh_token := none
    email_confirmation_otp := none
    email_confirmation_otp_expires := none }

/-- A concrete unconfirmed user with a pending OTP, used as a test row. -/
def sampleA : User :=
  { id := 1
    email := "a@b.com"
    first_name := "Ann"
    last_name := "Lee"
    password := some "ph"
    google_id := none
    role := "admin"
    email_confirmed := false
    email_confirmation_otp := some "111111"
    email_confirmation_otp_expires := some 1000
    refresh_token := some "tok"
    created_at := 5 }

/-- A concrete confirmed user with cleared OTP fields, used as a test row. -/
def sampleB : User :=
  { id := 2
    email := "b@b.com"
    first_name := "Bob"
    last_name := "Ray"
    password := some "ph"
    google_id := none
    role := "user"
    email_confirmed := true
    email_confirmation_otp := none
    email_confirmation_otp_expires := none
    refresh_token := none
    created_at := 9 }

/-- A concrete valid registration payload, used as a test input. -/
def sampleData : UserData :=
  { email := some "c@b.com"
    first_name := some "Cam"
    last_name := some "Doe"
    password := some (some "pw") }

/-! ### General lemmas about the store operations -/

theorem applyData_empty (u : User) : applyData {} u = u := rfl

theorem updateWhereId_applyData_empty (s : Store) (id : Nat) :
    updateWhereId s id (applyData {}) = s := by
  induction s with
  | nil => rfl
  | cons a t ih =>
    show (if a.id == id then applyData {} a else a) :: updateWhereId t id (applyData {})
        = a :: t
    rw [ih]
    split <;> simp [applyData_empty]

theorem findByPk_updateWhereId (s : Store) (id : Nat) (f : User → User)
    (hf : ∀ u, u.id = id → (f u).id = id) :
    findByPk (updateWhereId s id f) id = (findByPk s id).map f := by
  induction s with
  | nil => rfl
  | cons a t ih =>
    show List.find? _ ((if a.id == id then f a else a) :: updateWhereId t id f)
        = (List.find? _ (a :: t)).map f
    cases hb : (a.id == id) with
    | true =>
      have ha : a.id = id := beq_iff_eq.mp hb
      have hfa : ((f a).id == id) = true := beq_iff_eq.mpr (hf a ha)
      have h1 : List.find? (fun u => u.id == id) (f a :: updateWhereId t id f)
          = some (f a) := List.find?_cons_of_pos _ hfa
      have h2 : List.find? (fun u => u.id == id) (a :: t) = some a :=
        List.find?_cons_of_pos _ hb
      rw [if_pos rfl, h1, h2]
      rfl
    | false =>
      have h1 : List.find? (fun u => u.id == id) (a :: updateWhereId t id f)
          = List.find? (fun u => u.id == id) (updateWhereId t id f) :=
        List.find?_cons_of_neg _ (by simp [hb])
      have h2 : List.find? (fun u => u.id == id) (a :: t)
          = List.find? (fun u => u.id == id) t :=
        List.find?_cons_of_neg _ (by simp [hb])
      rw [if_neg (by simp), h1, h2]
      exact ih

theorem mem_insertDesc (v u : User) (l : List User) :
    v ∈ insertDesc u l ↔ v = u ∨ v ∈ l := by
  induction l with
  | nil => simp [insertDesc]
  | cons a t ih =>
    unfold insertDesc
    split
    · simp
    · simp only [List.mem_cons, ih]
      tauto

theorem mem_sortByCreatedDesc (v : User) (l : List User) :
    v ∈ sortByCreatedDesc l ↔ v ∈ l := by
  induction l with
  | nil => simp [sortByCreatedDesc]
  | cons a t ih =>
    unfold sortByCreatedDesc
    rw [mem_insertDesc, ih]
    simp

theorem pairwise_insertDesc (u : User) (l : List User)
    (h : List.Pairwise (fun a b => b.created_at ≤ a.created_at) l) :
    List.Pairwise (fun a b => b.created_at ≤ a.created_at) (insertDesc u l) := by
  induction l with
  | nil => simp [insertDesc]
  | cons a t ih =>
    rw [List.pairwise_cons] at h
    unfold insertDesc
    split
    · rename_i hgt
      rw [List.pairwise_cons]
      refine ⟨?_, List.pairwise_cons.mpr h⟩
      intro b hb
      rcases List.mem_cons.mp hb with hb | hb
      · exact le_of_lt (hb ▸ hgt)
      · exact le_trans (h.1 b hb) (le_of_lt hgt)
    · rename_i hle
      rw [List.pairwise_cons]
      refine ⟨?_, ih h.2⟩
      intro b hb
      rcases (mem_insertDesc b u t).mp hb with hb | hb
      · exact hb ▸ le_of_not_lt hle
      · exact h.1 b hb

theorem pairwise_sortByCreatedDesc (l : List User) :
    List.Pairwise (fun a b => b.created_at ≤ a.created_at) (sortByCreatedDesc l) := by
  induction l with
  | nil => simp [sortByCreatedDesc]
  | cons a t ih => exact pairwise_insertDesc a _ ih

theorem storeInv_updateWhereId (s : Store) (id : Nat) (f : User → User)
    (hs : storeInv s) (hf : ∀ u ∈ s, u.id = id → userInv (f u)) :
    storeInv (updateWhereId s id f) := by
  intro v hv
  rcases List.mem_map.mp hv with ⟨w, hw, hveq⟩
  cases hb : (w.id == id) with
  | true =>
    have : f w = v := by rw [← hveq, if_pos hb]
    exact this ▸ hf w hw (beq_iff_eq.mp hb)
  | false =>
    have : w = v := by rw [← hveq, if_neg (by simp [hb])]
    exact this ▸ hs w hw

theorem findByPk_append_fresh (s : Store) (u : User) (id : Nat)
    (hs : ∀ v ∈ s, v.id ≠ id) (hu : u.id = id) :
    findByPk (s ++ [u]) id = some u := by
  have hnone : List.find? (fun v => v.id == id) s = none :=
    List.find?_eq_none.mpr (fun v hv => by simp [hs v hv])
  have hone : List.find? (fun v => v.id == id) [u] = some u :=
    List.find?_cons_of_pos _ (beq_iff_eq.mpr hu)
  show List.find? (fun v => v.id == id) (s ++ [u]) = some u
  rw [List.find?_append, hnone, hone, Option.none_or]

/-! ### Claim theorems -/

/-- Claim C10: for every id with no matching user, `deleteUser(id)` completes
normally, reports zero deleted rows and leaves the store unchanged; no
NotFound error is raised on the delete path. -/
theorem deleteUser_missing_id (id : Nat) (s : Store) (h : findByPk s id = none) :
    deleteUser id s = (Except.ok 0, s) := by
  unfold findByPk at h
  have hall : ∀ u ∈ s, (u.id == id) = false := by
    intro u hu
    have := List.find?_eq_none.mp h u hu
    simpa using this
  unfold deleteUser
  have h1 : s.filter (fun u => u.id == id) = [] :=
    List.filter_eq_nil_iff.mpr (fun u hu => by simp [hall u hu])
  have h2 : s.filter (fun u => !(u.id == id)) = s :=
    List.filter_eq_self.mpr (fun u hu => by simp [hall u hu])
  rw [h1, h2]
  rfl

/-- Witness for C10 at a concrete store: id 3 is absent from `[sampleA]`. -/
theorem deleteUser_missing_id_witness :
    findByPk [sampleA] 3 = none ∧ deleteUser 3 [sampleA] = (Except.ok 0, [sampleA]) :=
  ⟨by decide, deleteUser_missing_id 3 [sampleA] (by decide)⟩

/-- Claim C2: a failing `verifyEmailOTP` call (mismatched code or expiry not
in the future) performs no write: the store after the call is exactly the
store before it. -/
theorem verifyEmailOTP_failure_no_write (now : Int) (uid : Nat) (otp : String)
    (s : Store) (e : Err) (h : (verifyEmailOTP now uid otp s).1 = Except.error e) :
    (verifyEmailOTP now uid otp s).2 = s := by
  unfold verifyEmailOTP at h ⊢
  cases hf : List.find?
      (fun u => u.id == uid && u.email_confirmation_otp == some otp && otpLive now u) s with
  | none => rfl
  | some u => rw [hf] at h; simp at h

/-- Witness for C2: the code is right but expired at time 2000, so the call
fails and the store is untouched. -/
theorem verifyEmailOTP_failure_no_write_witness :
    (verifyEmailOTP 2000 1 "111111" [sampleA]).1 = Except.error Err.InvalidOrExpiredOTP ∧
    (verifyEmailOTP 2000 1 "111111" [sampleA]).2 = [sampleA] :=
  ⟨rfl, verifyEmailOTP_failure_no_write 2000 1 "111111" [sampleA]
    Err.InvalidOrExpiredOTP rfl⟩

/-- Claim C9 (refuted, code bug): `revokeRefreshToken` updates the key
`refreshToken`, which is not a model attribute (the column is
`refresh_token`), so the UPDATE carries no field assignment: the store is
always returned unchanged, and on a user holding token `"tok"` the token
is still `"tok"` afterwards instead of null. -/
theorem revokeRefreshToken_leaves_token :
    (∀ (uid : Nat) (s : Store), (revokeRefreshToken uid s).2 = s) ∧
    sampleA.refresh_token = some "tok" ∧
    (revokeRefreshToken 1 [sampleA]).2 = [sampleA] ∧
    findByPk (revokeRefreshToken 1 [sampleA]).2 1 = some sampleA :=
  ⟨fun uid s => updateWhereId_applyData_empty s uid, rfl,
    updateWhereId_applyData_empty [sampleA] 1, by decide⟩

/-- Claim C5: `updateUserOTP` fails with NotFound when the user is absent;
when the user exists it stores the newly dispatched code with a fresh
15-minute expiry, overwriting whatever was pending. -/
theorem updateUserOTP_spec (now : Int) (otp : String) (uid : Nat) (s : Store) :
    (findByPk s uid = none → updateUserOTP now otp uid s = (Except.error Err.NotFound, s)) ∧
    (∀ u, findByPk s uid = some u →
      (updateUserOTP now otp uid s).1 = Except.ok u ∧
      findByPk (updateUserOTP now otp uid s).2 uid = some
        { u with
          email_confirmation_otp := some otp
          email_confirmation_otp_expires := some (now + otpTTL) }) := by
  constructor
  · intro h
    unfold updateUserOTP
    rw [h]
  · intro u hu
    unfold updateUserOTP
    rw [hu]
    refine ⟨rfl, ?_⟩
    show findByPk (setOTPFields s uid otp now) uid = _
    unfold setOTPFields
    rw [findByPk_updateWhereId s uid
      (fun u => { u with
        email_confirmation_otp := some otp
        email_confirmation_otp_expires := some (now + otpTTL) })
      (fun v hv => hv), hu]
    rfl

/-- Witness for C5: `sampleA` (id 1) exists, `sampleA`'s pending code
`"111111"` is overwritten by `"999999"` expiring at `100 + otpTTL`. -/
theorem updateUserOTP_spec_witness :
    findByPk [sampleA] 1 = some sampleA ∧
    ((updateUserOTP 100 "999999" 1 [sampleA]).1 = Except.ok sampleA ∧
      findByPk (updateUserOTP 100 "999999" 1 [sampleA]).2 1 = some
        { sampleA with
          email_confirmation_otp := some "999999"
          email_confirmation_otp_expires := some (100 + otpTTL) }) :=
  ⟨by decide, (updateUserOTP_spec 100 "999999" 1 [sampleA]).2 sampleA (by decide)⟩

/-- Claim C1: `verifyEmailOTP(userId, otp)` succeeds iff a stored user has
that id, that exact OTP and an expiry strictly later than now; on success
the returned and persisted user is confirmed with both OTP fields cleared,
and replaying the same, now-cleared code fails; every failure carries the
single invalid-or-expired error kind. -/
theorem verifyEmailOTP_spec (now now2 : Int) (uid : Nat) (otp : String) (s : Store) :
    ((∃ r, (verifyEmailOTP now uid otp s).1 = Except.ok r) ↔
      ∃ u ∈ s, u.id = uid ∧ u.email_confirmation_otp = some otp ∧ otpLive now u = true) ∧
    (∀ u' s2, verifyEmailOTP now uid otp s = (Except.ok u', s2) →
      u'.email_confirmed = true ∧ u'.email_confirmation_otp = none ∧
      u'.email_confirmation_otp_expires = none ∧ findByPk s2 uid = some u' ∧
      verifyEmailOTP now2 uid otp s2 = (Except.error Err.InvalidOrExpiredOTP, s2)) ∧
    (∀ e s2, verifyEmailOTP now uid otp s = (Except.error e, s2) →
      e = Err.InvalidOrExpiredOTP) := by
  cases hf : List.find?
      (fun u => u.id == uid && u.email_confirmation_otp == some otp && otpLive now u) s with
  | none =>
    have hveq : verifyEmailOTP now uid otp s = (Except.error Err.InvalidOrExpiredOTP, s) := by
      unfold verifyEmailOTP
      rw [hf]
    refine ⟨⟨?_, ?_⟩, ?_, ?_⟩
    · rintro ⟨r, hr⟩
      rw [hveq] at hr
      simp at hr
    · rintro ⟨u, hu, h1, h2, h3⟩
      exfalso
      apply List.find?_eq_none.mp hf u hu
      simp [h1, h2, h3]
    · intro u' s2 h
      rw [hveq] at h
      simp at h
    · intro e s2 h
      rw [hveq] at h
      have h1 := congrArg Prod.fst h
      exact (Except.error.inj h1).symm
  | some u =>
    have hpu := List.find?_some hf
    simp only [Bool.and_eq_true, beq_iff_eq] at hpu
    obtain ⟨⟨h1, h2⟩, h3⟩ := hpu
    have humem : u ∈ s := List.mem_of_find?_eq_some hf
    subst h1
    have hveq : verifyEmailOTP now u.id otp s =
        (Except.ok { u with
          email_confirmed := true
          email_confirmation_otp := none
          email_confirmation_otp_expires := none },
        updateWhereId s u.id (fun _ => { u with
          email_confirmed := true
          email_confirmation_otp := none
          email_confirmation_otp_expires := none })) := by
      unfold verifyEmailOTP
      rw [hf]
    refine ⟨iff_of_true ⟨_, by rw [hveq]⟩ ⟨u, humem, rfl, h2, h3⟩, ?_, ?_⟩
    · intro u' s2 h
      rw [hveq] at h
      obtain ⟨hu', hs2⟩ := Prod.mk.injEq _ _ _ _ ▸ h
      have hu'' : { u with
          email_confirmed := true
          email_confirmation_otp := none
          email_confirmation_otp_expires := none } = u' := by
        exact Except.ok.inj hu'
      subst hu''
      subst hs2
      refine ⟨rfl, rfl, rfl, ?_, ?_⟩
      · rw [findByPk_updateWhereId s u.id
          (fun _ => { u with
            email_confirmed := true
            email_confirmation_otp := none
            email_confirmation_otp_expires := none })
          (fun v hv => rfl)]
        have hsome : (findByPk s u.id).isSome := by
          apply List.find?_isSome.mpr
          exact ⟨u, humem, by simp⟩
        obtain ⟨w, hw⟩ := Option.isSome_iff_exists.mp hsome
        rw [hw]
        rfl
      · have hnone2 : List.find?
            (fun v => v.id == u.id && v.email_confirmation_otp == some otp && otpLive now2 v)
            (updateWhereId s u.id (fun _ => { u with
              email_confirmed := true
              email_confirmation_otp := none
              email_confirmation_otp_expires := none })) = none := by
          apply List.find?_eq_none.mpr
          intro v hv
          rcases List.mem_map.mp hv with ⟨w, hwmem, hweq⟩
          by_cases hb : (w.id == u.id) = true
          · have hveq2 : ({ u with
                email_confirmed := true
                email_confirmation_otp := none
                email_confirmation_otp_expires := none } : User) = v := by
              rw [← hweq, if_pos hb]
            rw [← hveq2]
            simp
          · have hveq2 : w = v := by
              rw [← hweq, if_neg hb]
            rw [← hveq2]
            simp only [Bool.and_eq_true, not_and]
            intro hcontra
            exact absurd hcontra.1 hb
        unfold verifyEmailOTP
        rw [hnone2]
    · intro e s2 h
      rw [hveq] at h
      simp at h

/-- Witness for C1: `sampleA` verifies with its pending code at time 500;
the persisted row is confirmed with cleared OTP fields and the same code
is rejected afterwards. -/
theorem verifyEmailOTP_spec_witness :
    findByPk [{ sampleA with
        email_confirmed := true
        email_confirmation_otp := none
        email_confirmation_otp_expires := none }] 1 =
      some { sampleA with
        email_confirmed := true
        email_confirmation_otp := none
        email_confirmation_otp_expires := none } ∧
    verifyEmailOTP 2000 1 "111111" [{ sampleA with
        email_confirmed := true
        email_confirmation_otp := none
        email_confirmation_otp_expires := none }] =
      (Except.error Err.InvalidOrExpiredOTP, [{ sampleA with
        email_confirmed := true
        email_confirmation_otp := none
        email_confirmation_otp_expires := none }]) := by
  have h := (verifyEmailOTP_spec 500 2000 1 "111111" [sampleA]).2.1
      { sampleA with
        email_confirmed := true
        email_confirmation_otp := none
        email_confirmation_otp_expires := none }
      [{ sampleA with
        email_confirmed := true
        email_confirmation_otp := none
        email_confirmation_otp_expires := none }]
      rfl
  exact ⟨h.2.2.2.1, h.2.2.2.2⟩

/-- Claim C4: `createUser` inserts the row, stores the dispatched code with
an absolute expiry of now plus 15 minutes (900 seconds) on the new user,
and returns the created user; the freshly stored user is unconfirmed with
that code and expiry.  Missing required fields fail with a validation
error and a taken email is propagated as a uniqueness violation. -/
theorem createUser_spec (now : Int) (otp : String) (newId : Nat) (d : UserData)
    (s : Store) :
    (requiredPresent d = false →
      createUser now otp newId d s = (Except.error Err.ValidationError, s)) ∧
    (requiredPresent d = true → emailTaken s (d.email.getD "") = true →
      createUser now otp newId d s = (Except.error Err.Conflict, s)) ∧
    (requiredPresent d = true → emailTaken s (d.email.getD "") = false →
      (∀ u ∈ s, u.id ≠ newId) → d.email_confirmed = none →
      (createUser now otp newId d s).1 = Except.ok (buildUser d newId now) ∧
      (buildUser d newId now).email_confirmed = false ∧
      findByPk (createUser now otp newId d s).2 newId = some
        { buildUser d newId now with
          email_confirmation_otp := some otp
          email_confirmation_otp_expires := some (now + otpTTL) } ∧
      otpTTL = 900 * 1000) := by
  refine ⟨?_, ?_, ?_⟩
  · intro h
    unfold createUser
    rw [h]
    rfl
  · intro h1 h2
    unfold createUser
    rw [h1, h2]
    rfl
  · intro h1 h2 h3 h4
    have hceq : createUser now otp newId d s =
        (Except.ok (buildUser d newId now),
          setOTPFields (s ++ [buildUser d newId now]) newId otp now) := by
      unfold createUser
      rw [h1, h2]
      rfl
    rw [hceq]
    refine ⟨rfl, by simp [buildUser, h4], ?_, rfl⟩
    unfold setOTPFields
    rw [findByPk_updateWhereId _ newId
      (fun u => { u with
        email_confirmation_otp := some otp
        email_confirmation_otp_expires := some (now + otpTTL) })
      (fun v hv => hv)]
    rw [findByPk_append_fresh s (buildUser d newId now) newId h3 rfl]
    rfl

/-- Witness for C4: registering `sampleData` at time 100 with code
`"999999"` against the one-row store `[sampleA]`. -/
theorem createUser_spec_witness :
    (createUser 100 "999999" 3 sampleData [sampleA]).1 =
      Except.ok (buildUser sampleData 3 100) ∧
    (buildUser sampleData 3 100).email_confirmed = false ∧
    findByPk (createUser 100 "999999" 3 sampleData [sampleA]).2 3 = some
      { buildUser sampleData 3 100 with
        email_confirmation_otp := some "999999"
        email_confirmation_otp_expires := some (100 + otpTTL) } ∧
    otpTTL = 900 * 1000 :=
  (createUser_spec 100 "999999" 3 sampleData [sampleA]).2.2 rfl (by decide)
    (by decide) rfl

/-- Claim C3 fails as stated: the store `[sampleB]` satisfies the invariant
(`sampleB` is confirmed with null OTP fields), yet `updateUserOTP` on that
confirmed user stores a fresh OTP while `email_confirmed` stays true, so
the resulting store violates it. -/
theorem updateUserOTP_confirmed_breaks_invariant :
    storeInv [sampleB] ∧ ¬ storeInv (updateUserOTP 100 "888888" 2 [sampleB]).2 := by
  decide

/-- Claim C3 as amended: every service operation preserves the per-user
invariant, except that the payload-taking operations need a payload not
touching the confirmation fields (the code forwards payloads verbatim),
`createUser` needs the database-guaranteed fresh id, and `updateUserOTP`
needs the target user to be unconfirmed — on a confirmed user it breaks
the invariant, as `updateUserOTP_confirmed_breaks_invariant` shows. -/
theorem service_invariant_preservation (now : Int) (otp : String) (newId uid : Nat)
    (d : UserData) (s : Store) (hs : storeInv s) :
    (cleanData d → (∀ u ∈ s, u.id ≠ newId) → storeInv (createUser now otp newId d s).2) ∧
    (noOtpData d → storeInv (createGoogleUser now newId d s).2) ∧
    ((∀ u ∈ s, u.id = uid → u.email_confirmed = false) →
      storeInv (updateUserOTP now otp uid s).2) ∧
    storeInv (verifyEmailOTP now uid otp s).2 ∧
    (cleanData d → storeInv (updateUser uid d s).2) ∧
    storeInv (deleteUser uid s).2 ∧
    storeInv (revokeRefreshToken uid s).2 := by
  refine ⟨?_, ?_, ?_, ?_, ?_, ?_, ?_⟩
  · intro hd hfresh
    obtain ⟨hd1, hd2, hd3⟩ := hd
    unfold createUser
    cases h1 : requiredPresent d with
    | false => exact hs
    | true =>
      cases h2 : emailTaken s (d.email.getD "") with
      | true => exact hs
      | false =>
        show storeInv (setOTPFields (s ++ [buildUser d newId now]) newId otp now)
        have happ : storeInv (s ++ [buildUser d newId now]) := by
          intro v hv
          rcases List.mem_append.mp hv with hv | hv
          · exact hs v hv
          · have : v = buildUser d newId now := by simpa using hv
            subst this
            simp [userInv, buildUser, hd1, hd2, hd3]
        apply storeInv_updateWhereId _ _ _ happ
        intro v hv hvid
        rcases List.mem_append.mp hv with hv | hv
        · exact absurd hvid (hfresh v hv)
        · have : v = buildUser d newId now := by simpa using hv
          subst this
          simp [userInv, buildUser, hd1]
  · intro hnd
    obtain ⟨hn1, hn2⟩ := hnd
    unfold createGoogleUser
    cases h1 : requiredPresent d with
    | false => exact hs
    | true =>
      cases h2 : emailTaken s (d.email.getD "") with
      | true => exact hs
      | false =>
        intro v hv
        rcases List.mem_append.mp hv with hv | hv
        · exact hs v hv
        · have : v = buildUser { d with email_confirmed := some true } newId now := by
            simpa using hv
          subst this
          simp [userInv, buildUser, hn1, hn2]
  · intro hconf
    unfold updateUserOTP
    cases hfind : findByPk s uid with
    | none => exact hs
    | some u =>
      show storeInv (setOTPFields s uid otp now)
      apply storeInv_updateWhereId _ _ _ hs
      intro w hw hwid
      simp [userInv, hconf w hw hwid]
  · unfold verifyEmailOTP
    cases hf : List.find?
        (fun u => u.id == uid && u.email_confirmation_otp == some otp && otpLive now u) s with
    | none => exact hs
    | some u =>
      apply storeInv_updateWhereId _ _ _ hs
      intro w hw hwid
      simp [userInv]
  · intro hd
    apply storeInv_updateWhereId _ _ _ hs
    intro w hw hwid
    simpa [userInv, applyData, hd.1, hd.2.1, hd.2.2] using hs w hw
  · intro v hv
    exact hs v (List.mem_of_mem_filter hv)
  · rw [show (revokeRefreshToken uid s).2 = s from updateWhereId_applyData_empty s uid]
    exact hs

/-- Witness for the amended C3 on concrete inputs: each operation applied
to the invariant-satisfying store `[sampleA]` yields an
invariant-satisfying store. -/
theorem service_invariant_preservation_witness :
    storeInv (createUser 100 "999999" 3 sampleData [sampleA]).2 ∧
    storeInv (createGoogleUser 100 3 sampleData [sampleA]).2 ∧
    storeInv (updateUserOTP 100 "999999" 1 [sampleA]).2 ∧
    storeInv (verifyEmailOTP 100 1 "999999" [sampleA]).2 ∧
    storeInv (updateUser 1 sampleData [sampleA]).2 ∧
    storeInv (deleteUser 1 [sampleA]).2 ∧
    storeInv (revokeRefreshToken 1 [sampleA]).2 := by
  have h := service_invariant_preservation 100 "999999" 3 1 sampleData [sampleA] (by decide)
  exact ⟨h.1 (by decide) (by decide), h.2.1 (by decide), h.2.2.1 (by decide),
    h.2.2.2.1, h.2.2.2.2.1 (by decide), h.2.2.2.2.2.1, h.2.2.2.2.2.2⟩

/-- Claim C8: `nextOffset` is null exactly when `offset` plus the number of
returned rows reaches `totalCount`, and otherwise equals
`offset + limit`. -/
theorem getAllUsers_nextOffset_spec (limit offset : Nat) (search : String)
    (role : Option String) (s : Store) :
    ((getAllUsers limit offset search role s).nextOffset =
      if offset + (getAllUsers limit offset search role s).users.length <
          (getAllUsers limit offset search role s).totalCount
        then some (offset + limit) else none) ∧
    ((getAllUsers limit offset search role s).nextOffset = none ↔
      (getAllUsers limit offset search role s).totalCount ≤
        offset + (getAllUsers limit offset search role s).users.length) := by
  have h1 : (getAllUsers limit offset search role s).nextOffset =
      if offset + (getAllUsers limit offset search role s).users.length <
          (getAllUsers limit offset search role s).totalCount
        then some (offset + limit) else none := by
    unfold getAllUsers
    simp [List.length_map]
  refine ⟨h1, ?_⟩
  rw [h1]
  split
  · rename_i h
    exact iff_of_false (by simp) (by omega)
  · rename_i h
    exact iff_of_true rfl (by omega)

theorem matchesQuery_scrubUser (q : String) (r : Option String) (u : User) :
    matchesQuery q r (scrubUser u) = matchesQuery q r u := rfl

theorem insertDesc_map_scrubUser (u : User) (l : List User) :
    insertDesc (scrubUser u) (l.map scrubUser) = (insertDesc u l).map scrubUser := by
  induction l with
  | nil => rfl
  | cons a t ih =>
    show insertDesc (scrubUser u) (scrubUser a :: t.map scrubUser) = _
    unfold insertDesc
    split
    · rename_i h
      have h' : u.created_at > a.created_at := h
      rw [if_pos h']
      rfl
    · rename_i h
      have h' : ¬ u.created_at > a.created_at := h
      rw [if_neg h']
      show scrubUser a :: insertDesc (scrubUser u) (t.map scrubUser) = _
      rw [ih]
      rfl

theorem sortByCreatedDesc_map_scrubUser (l : List User) :
    sortByCreatedDesc (l.map scrubUser) = (sortByCreatedDesc l).map scrubUser := by
  induction l with
  | nil => rfl
  | cons a t ih =>
    show insertDesc (scrubUser a) (sortByCreatedDesc (t.map scrubUser)) = _
    rw [ih, insertDesc_map_scrubUser]
    rfl

theorem listedOfUser_scrubUser (u : User) : listedOfUser (scrubUser u) = listedOfUser u := rfl

/-- Claim C7: the listing never includes `refresh_token`,
`email_confirmation_otp` or `email_confirmation_otp_expires`: the returned
row type carries no such fields, and the whole result of `getAllUsers` is
unchanged when those three columns are nulled out in every stored row — the
output does not depend on them. -/
theorem getAllUsers_excludes_sensitive (limit offset : Nat) (search : String)
    (role : Option String) (s : Store) :
    getAllUsers limit offset search role (s.map scrubUser) =
      getAllUsers limit offset search role s := by
  have hp : (fun u => matchesQuery search role (scrubUser u)) = matchesQuery search role :=
    funext fun u => matchesQuery_scrubUser search role u
  have hfil : (s.map scrubUser).filter (matchesQuery search role)
      = (s.filter (matchesQuery search role)).map scrubUser := by
    rw [List.filter_map]
    simp only [Function.comp_def, hp]
  have hl : (listedOfUser ∘ scrubUser) = listedOfUser :=
    funext fun u => listedOfUser_scrubUser u
  unfold getAllUsers
  rw [hfil, sortByCreatedDesc_map_scrubUser, ← List.map_drop, ← List.map_take,
    List.map_map, hl]
  simp [List.length_map]

/-- Claim C6 fails as stated in two ways: with limit 1 the call does not
return all users (`sampleA` is stored but absent from the listing), and a
non-null but empty role filter is falsy in the source, so it filters
nothing: the result contains `sampleA` whose role is not `""`. -/
theorem getAllUsers_filter_cex :
    (sampleA ∈ ([sampleA, sampleB] : Store) ∧
      listedOfUser sampleA ∉ (getAllUsers 1 0 "" none [sampleA, sampleB]).users) ∧
    ((getAllUsers 10 0 "" (some "") [sampleA]).users = [listedOfUser sampleA] ∧
      sampleA.role ≠ "") := by
  decide

/-- Claim C6 as amended: with no search and no role filter, `getAllUsers`
returns the `offset`/`limit` page of all users ordered by `created_at`
descending (and counts them all); every listing is ordered by `created_at`
descending; with a non-null, non-empty role only rows with exactly that
role are returned; with a non-empty search term only rows where the term
occurs case-insensitively in first name, last name or email. -/
theorem getAllUsers_spec (limit offset : Nat) (search : String)
    (role : Option String) (s : Store) :
    ((getAllUsers limit offset "" none s).users =
        (((sortByCreatedDesc s).drop offset).take limit).map listedOfUser ∧
      (getAllUsers limit offset "" none s).totalCount = s.length) ∧
    List.Pairwise (fun a b => b.created_at ≤ a.created_at)
      (getAllUsers limit offset search role s).users ∧
    (∀ r, r ≠ "" → ∀ v ∈ (getAllUsers limit offset search (some r) s).users,
      ∃ u ∈ s, u.role = r ∧ v = listedOfUser u) ∧
    (search ≠ "" → ∀ v ∈ (getAllUsers limit offset search role s).users,
      ∃ u ∈ s, v = listedOfUser u ∧
        (containsCI u.first_name search || containsCI u.last_name search ||
          containsCI u.email search) = true) := by
  have hq : matchesQuery "" none = fun _ => true := funext fun u => rfl
  refine ⟨?_, ?_, ?_, ?_⟩
  · unfold getAllUsers
    rw [hq, List.filter_true]
    exact ⟨rfl, rfl⟩
  · unfold getAllUsers
    have hsorted := pairwise_sortByCreatedDesc (s.filter (matchesQuery search role))
    have hsub : (((sortByCreatedDesc (s.filter (matchesQuery search role))).drop
          offset).take limit).Sublist
        (sortByCreatedDesc (s.filter (matchesQuery search role))) :=
      (List.take_sublist _ _).trans (List.drop_sublist _ _)
    exact List.pairwise_map.mpr (List.Pairwise.sublist hsub hsorted)
  · intro r hr v hv
    unfold getAllUsers at hv
    simp only [List.mem_map] at hv
    obtain ⟨w, hw, hveq⟩ := hv
    have hw3 := (mem_sortByCreatedDesc w _).mp (List.mem_of_mem_drop (List.mem_of_mem_take hw))
    obtain ⟨hws, hpred⟩ := List.mem_filter.mp hw3
    unfold matchesQuery at hpred
    rw [Bool.and_eq_true] at hpred
    have hrb : (r == "") = false := by
      cases hx : (r == "") with
      | false => rfl
      | true => exact absurd (beq_iff_eq.mp hx) hr
    have hrole2 : (if (r == "") = true then true else (w.role == r)) = true := hpred.2
    rw [hrb, if_neg (by simp)] at hrole2
    exact ⟨w, hws, beq_iff_eq.mp hrole2, hveq.symm⟩
  · intro hsearch v hv
    unfold getAllUsers at hv
    simp only [List.mem_map] at hv
    obtain ⟨w, hw, hveq⟩ := hv
    have hw3 := (mem_sortByCreatedDesc w _).mp (List.mem_of_mem_drop (List.mem_of_mem_take hw))
    obtain ⟨hws, hpred⟩ := List.mem_filter.mp hw3
    unfold matchesQuery at hpred
    rw [Bool.and_eq_true] at hpred
    have hsb : (search == "") = false := by
      cases hx : (search == "") with
      | false => rfl
      | true => exact absurd (beq_iff_eq.mp hx) hsearch
    have hmatch2 : (if (search == "") = true then true
        else (containsCI w.first_name search || containsCI w.last_name search ||
          containsCI w.email search)) = true := hpred.1
    rw [hsb, if_neg (by simp)] at hmatch2
    exact ⟨w, hws, hveq.symm, hmatch2⟩

/-- Witness for the amended C6: searching `"ann"` with role `"admin"` in a
two-row store returns `sampleA`, which indeed has that role and contains
the term in its first name. -/
theorem getAllUsers_spec_witness :
    (∃ u ∈ ([sampleA, sampleB] : Store), u.role = "admin" ∧
      listedOfUser sampleA = listedOfUser u) ∧
    (∃ u ∈ ([sampleA, sampleB] : Store), listedOfUser sampleA = listedOfUser u ∧
      (containsCI u.first_name "ann" || containsCI u.last_name "ann" ||
        containsCI u.email "ann") = true) := by
  have h := getAllUsers_spec 10 0 "ann" (some "admin") [sampleA, sampleB]
  exact ⟨h.2.2.1 "admin" (by decide) (listedOfUser sampleA) (by decide),
    h.2.2.2 (by decide) (listedOfUser sampleA) (by decide)⟩

end HeroWot
